import Mathlib

/-!
# Verification of core components of the `aquatic` BitTorrent tracker

Shallow embedding, in Lean 4, of the parts of the repository that the
checked properties concern:

* `crates/common/src/cpu_pinning.rs` — worker-to-CPU-core mapping
  (`WorkerIndex::get_core_index`, `get_worker_cpu_set`,
  `socket_attach_cbpf`);
* `aquatic_ws/src/lib/protocol/serde_helpers.rs` — the 20-byte identifier
  codec and the info-hash list deserializer;
* `crates/http/src/workers/swarm/mod.rs` — the swarm worker's handling of
  the `peer_valid_until` freshness stamp;
* `aquatic_http/src/lib/lib.rs` — the socket-worker startup barrier in
  `run`;
* `aquatic/src/main.rs` — the socket/state layout of the UDP binary.

Rust machine integers are modelled as `Nat` (all the embedded arithmetic
stays in range except where the source itself clamps, which is embedded
explicitly); Rust `Result` is modelled as `Except String`; strings are
modelled as lists of Unicode code points (`List Nat`).
-/

set_option autoImplicit false

deriving instance DecidableEq for Except

namespace Aquatic

/-! ## 20-byte codec (`aquatic_ws/src/lib/protocol/serde_helpers.rs`)

Strings are lists of `char` code points, modelled as `List Nat`.
Byte arrays (`[u8; 20]`) are modelled as `List Nat` whose elements are
below 256; the deserializer establishes that bound via its range check.
-/

/-- One step of `TwentyByteVisitor::visit_str`'s `for a in arr.iter_mut()`
loop: take `n` more characters from the remaining character iterator,
failing on an out-of-range character (`c as u32 > 255`) or on iterator
exhaustion (`not 20 bytes`).  The `c as u8` store is value-preserving
because the check guarantees `c ≤ 255`. -/
def visitStrLoop : Nat → List Nat → Except String (List Nat)
  | 0, _ => .ok []
  | _ + 1, [] => .error "not 20 bytes"
  | n + 1, c :: rest =>
    if 255 < c then
      .error "character not in single byte range"
    else
      (visitStrLoop n rest).map (fun arr => c :: arr)

/-- `TwentyByteVisitor::visit_str`: read exactly 20 in-range characters
from the front of the string; trailing characters are left unread. -/
def twentyByteVisitStr (value : List Nat) : Except String (List Nat) :=
  visitStrLoop 20 value

/-- `serialize_20_bytes`: `data.iter().map(|byte| *byte as char).collect()`.
The `u8 → char` cast preserves the numeric value, so on the code-point
model the produced string has exactly the byte values as characters. -/
def serialize_20_bytes (data : List Nat) : List Nat :=
  data.map (fun byte => byte)

/-- `InfoHash(pub [u8; 20])` from `aquatic_ws`'s protocol module. -/
structure InfoHash where
  bytes : List Nat
  deriving DecidableEq, Repr

/-- The JSON-ish values `deserialize_any` can hand to a visitor: a string,
a sequence, null, or some other kind of value (number, bool, map, …). -/
inductive JsonVal
  | str (s : List Nat)
  | arr (elems : List JsonVal)
  | null
  | other
  deriving Repr

/-- `InfoHashVecVisitor::visit_str`: parse the single string, wrapping the
error message, and yield a one-element vector. -/
def infoHashVecVisitStr (value : List Nat) : Except String (List InfoHash) :=
  match twentyByteVisitStr value with
  | .ok arr => .ok [InfoHash.mk arr]
  | .error err => .error ("got string, but " ++ err)

/-- `InfoHashVecVisitor::visit_seq`'s
`while let Ok(Some(value)) = seq.next_element::<&str>()` loop: a
non-string element makes `next_element` fail, which exits the loop and
returns the hashes collected so far; an in-sequence string that is not a
valid 20-byte value aborts the whole visit with an error (the `?`). -/
def infoHashVecVisitSeq : List JsonVal → Except String (List InfoHash)
  | [] => .ok []
  | .str s :: rest =>
    match twentyByteVisitStr s with
    | .ok arr => (infoHashVecVisitSeq rest).map (fun hs => InfoHash.mk arr :: hs)
    | .error err => .error err
  | _ :: _ => .ok []

/-- `deserialize_any(InfoHashVecVisitor)`: strings go to `visit_str`,
sequences to `visit_seq`; null and other value kinds hit no implemented
visitor method and produce a deserializer error. -/
def infoHashVecVisit : JsonVal → Except String (List InfoHash)
  | .str s => infoHashVecVisitStr s
  | .arr elems => infoHashVecVisitSeq elems
  | .null => .error "invalid type: null"
  | .other => .error "invalid type"

/-- `deserialize_info_hashes`: `deserialize_any(InfoHashVecVisitor)`
followed by `unwrap_or_default()` — every error is swallowed into the
empty vector, so this function never fails. -/
def deserialize_info_hashes (v : JsonVal) : List InfoHash :=
  match infoHashVecVisit v with
  | .ok hs => hs
  | .error _ => []

/-! ## CPU pinning (`crates/common/src/cpu_pinning.rs`) -/

inductive CpuPinningDirection
  | ascending
  | descending
  deriving DecidableEq, Repr

inductive HyperThreadMapping
  | system
  | subsequent
  | split
  deriving DecidableEq, Repr

/-- The fields of `CpuPinningConfigAsc`/`CpuPinningConfigDesc` that
`CpuPinningConfig` exposes. -/
structure CpuPinningConfig where
  active : Bool
  direction : CpuPinningDirection
  hyperthread : HyperThreadMapping
  core_offset : Nat
  deriving DecidableEq, Repr

inductive WorkerIndex
  | socketWorker (index : Nat)
  | swarmWorker (index : Nat)
  | util
  deriving DecidableEq, Repr

/-- `WorkerIndex::get_core_index`. -/
def WorkerIndex.get_core_index (self : WorkerIndex) (config : CpuPinningConfig)
    (socket_workers swarm_workers num_cores : Nat) : Nat :=
  let ascending_index :=
    match self with
    | .socketWorker index => config.core_offset + index
    | .swarmWorker index => config.core_offset + socket_workers + index
    | .util => config.core_offset + socket_workers + swarm_workers
  let max_core_index := num_cores - 1
  let ascending_index := min ascending_index max_core_index
  match config.direction with
  | .ascending => ascending_index
  | .descending => max_core_index - ascending_index

/-- A glommio `CpuLocation`, reduced to the two fields the pinning code
reads: the logical CPU id and the physical core id. -/
structure CpuLocation where
  cpu : Nat
  core : Nat
  deriving DecidableEq, Repr

/-- `get_num_cpu_cores`: maximum core id among the online CPUs, plus one;
error on an empty CPU set.  The online CPU list is a parameter (it comes
from the operating system via `CpuSet::online`). -/
def get_num_cpu_cores (online : List CpuLocation) : Except String Nat :=
  match online with
  | [] => .error "CpuSet is empty"
  | _ => .ok ((online.map (fun l => l.core)).foldl Nat.max 0 + 1)

/-- `get_worker_cpu_set`, with the online CPU topology passed explicitly. -/
def get_worker_cpu_set (online : List CpuLocation) (config : CpuPinningConfig)
    (socket_workers swarm_workers : Nat) (worker_index : WorkerIndex) :
    Except String (List CpuLocation) :=
  match get_num_cpu_cores online with
  | .error e => .error e
  | .ok num_cpu_cores =>
    let core_index :=
      worker_index.get_core_index config socket_workers swarm_workers num_cpu_cores
    let too_many_workers :=
      match config.hyperthread, config.direction with
      | .split, .ascending | .subsequent, .ascending =>
        decide (num_cpu_cores / 2 ≤ core_index)
      | .split, .descending | .subsequent, .descending =>
        decide (core_index < num_cpu_cores / 2)
      | .system, _ => false
    if too_many_workers then
      .error "CPU pinning: total number of workers (including the single utility worker) can not exceed number of virtual CPUs / 2 - core_offset in this hyperthread mapping mode"
    else
      let cpu_set :=
        match config.hyperthread with
        | .system => online.filter (fun l => l.core == core_index)
        | .split =>
          match config.direction with
          | .ascending =>
            online.filter (fun l =>
              l.cpu == core_index || l.cpu == core_index + num_cpu_cores / 2)
          | .descending =>
            online.filter (fun l =>
              l.cpu == core_index || l.cpu == core_index - num_cpu_cores / 2)
        | .subsequent =>
          let cpu_index_offset :=
            match config.direction with
            | .ascending => core_index * 2
            | .descending => num_cpu_cores - 2 * (num_cpu_cores - core_index)
          online.filter (fun l =>
            l.cpu == cpu_index_offset || l.cpu == cpu_index_offset + 1)
      if cpu_set.isEmpty then
        .error "CPU pinning: produced empty CPU set"
      else
        .ok cpu_set

/-! ## Swarm worker freshness stamp (`crates/http/src/workers/swarm/mod.rs`)

`run_swarm_worker` creates `peer_valid_until` once at startup and then
refreshes it from a repeating one-second timer; `handle_request_stream`
passes the stored stamp — not a stamp computed at request time — to
`handle_announce_request`.  Times are seconds since `ServerStartInstant`,
modelled as `Nat`.
-/

/-- Modelled from the spec: `ValidUntil::new(server_start_instant, age)`
(from `aquatic_common`, whose source is not in the checked tree) reads the
current instant relative to `ServerStartInstant` and adds the age —
"`ValidUntil` is an instant computed from the [current] time plus the
configured `max_peer_age`".  `now` is the instant at which the call is
made. -/
def ValidUntil.new (now age : Nat) : Nat :=
  now + age

/-- The events a swarm worker observes, in arrival order: the repeating
one-second timer refreshing `peer_valid_until` (`timerTick`), and an
announce request drawn from the request stream (`announce`).  Each event
carries the instant (seconds since server start) at which it is handled;
timer ticks drift, so tick instants are not forced to consecutive
seconds. -/
inductive SwarmWorkerEvent
  | timerTick (now : Nat)
  | announce (now : Nat)
  deriving DecidableEq, Repr

/-- The loop of `run_swarm_worker`/`handle_request_stream`, restricted to
how `peer_valid_until` flows: the worker starts with
`ValidUntil::new(start_time, max_peer_age)`, each timer tick replaces the
stored stamp with `ValidUntil::new(tick_time, max_peer_age)`, and each
announce passes the stored stamp unchanged to `handle_announce_request`.
Returns, per announce and in order, the pair (instant the request is
handled, stamp passed to `handle_announce_request`). -/
def swarmWorkerStampsFrom (max_peer_age : Nat) (peer_valid_until : Nat) :
    List SwarmWorkerEvent → List (Nat × Nat)
  | [] => []
  | .timerTick now :: rest =>
    swarmWorkerStampsFrom max_peer_age (ValidUntil.new now max_peer_age) rest
  | .announce now :: rest =>
    (now, peer_valid_until) :: swarmWorkerStampsFrom max_peer_age peer_valid_until rest

/-- Stamps passed to `handle_announce_request` over a worker run that
starts at `start_time`. -/
def swarmWorkerStamps (max_peer_age start_time : Nat)
    (events : List SwarmWorkerEvent) : List (Nat × Nat) :=
  swarmWorkerStampsFrom max_peer_age (ValidUntil.new start_time max_peer_age) events

/-- The instant of the most recent `peer_valid_until` refresh before each
announce: the worker start, or the latest preceding timer tick. -/
def lastRefreshStampsFrom (max_peer_age refresh_time : Nat) :
    List SwarmWorkerEvent → List (Nat × Nat)
  | [] => []
  | .timerTick now :: rest => lastRefreshStampsFrom max_peer_age now rest
  | .announce now :: rest =>
    (now, refresh_time + max_peer_age) :: lastRefreshStampsFrom max_peer_age refresh_time rest

/-! ## Socket worker startup barrier (`aquatic_http/src/lib/lib.rs`)

`run` polls `socket_worker_statuses` (a vector of
`Option<Result<(), String>>`, one slot per socket worker): any
`Some(Err(..))` makes `run` return the error; once every slot is `Some`
(and none is an error), privileges are optionally dropped and the request
worker is started.
-/

/-- What one poll of the statuses vector decides. -/
inductive BarrierOutcome
  | fail (err : String)
  | proceed
  | wait
  deriving DecidableEq, Repr

/-- The body of `run`'s status-polling loop, for one acquired lock: scan
for a `Some(Err(..))` entry (returning its error), then check whether all
entries are `Some`. -/
def barrierCheck (statuses : List (Option (Except String Unit))) : BarrierOutcome :=
  match statuses.findSome? (fun s =>
      match s with
      | some (.error err) => some err
      | _ => none) with
  | some err => .fail err
  | none =>
    if statuses.all Option.isSome then .proceed else .wait

/-- The observable actions of `run` after the workers are spawned. -/
inductive RunAction
  | dropPrivileges
  | spawnRequestWorker
  | returnError (err : String)
  deriving DecidableEq, Repr

/-- What `run` does once the polling loop exits on the given statuses
snapshot: on an error status, return it (exiting before the privilege
drop and before the request worker spawn); on all-success, drop
privileges if configured, then spawn the request worker. -/
def runAfterBarrier (drop_privileges : Bool)
    (statuses : List (Option (Except String Unit))) : List RunAction :=
  match barrierCheck statuses with
  | .fail err => [.returnError err]
  | .proceed =>
    (if drop_privileges then [RunAction.dropPrivileges] else []) ++
      [RunAction.spawnRequestWorker]
  | .wait => []

/-! ## CBPF steering program (`socket_attach_cbpf` in `cpu_pinning.rs`) -/

/-- A `libc::sock_filter` instruction; `code` is a `u16`, `k` a `u32`. -/
structure SockFilter where
  code : Nat
  jt : Nat
  jf : Nat
  k : Nat
  deriving DecidableEq, Repr

def BPF_LD : Nat := 0x00

def BPF_RET : Nat := 0x06

def BPF_W : Nat := 0x00

def BPF_ABS : Nat := 0x20

def BPF_A : Nat := 0x10

def SKF_AD_OFF : Int := -0x1000

def SKF_AD_CPU : Int := 36

/-- `u32::from_ne_bytes((SKF_AD_OFF + SKF_AD_CPU).to_ne_bytes())`: the
two's-complement reinterpretation of the negative extension offset. -/
def skfAdCpuK : Nat :=
  ((SKF_AD_OFF + SKF_AD_CPU) % (2 ^ 32 : Int)).toNat

/-- The classifier program `socket_attach_cbpf` installs via
`SO_ATTACH_REUSEPORT_CBPF`: load the CPU extension into A, return A.  The
modulo-by-`num_sockets` instruction present in the source is commented
out ("Disabled, because it doesn't make a lot of sense"), so it is not
part of the program. -/
def cbpfFilter : List SockFilter :=
  [ { code := BPF_LD ||| BPF_W ||| BPF_ABS, jt := 0, jf := 0, k := skfAdCpuK },
    { code := BPF_RET ||| BPF_A, jt := 0, jf := 0, k := 0 } ]

/-- Modelled from the spec: classic-BPF execution for the two instruction
forms the installed program uses, following the kernel semantics the
source cites (`include/uapi/linux/filter.h`; `SKF_AD_OFF + SKF_AD_CPU`
loads the id of the CPU handling the packet).  `cpu` is the index of the
interrupt-handling CPU, `a` the accumulator; an absolute 32-bit load at
the CPU-extension offset sets A to `cpu`, `BPF_RET | BPF_A` returns A,
and any instruction outside the modelled fragment (or running off the end
of the program) yields `none`. -/
def runCbpf (cpu : Nat) (a : Nat) : List SockFilter → Option Nat
  | [] => none
  | insn :: rest =>
    if insn.code = BPF_LD ||| BPF_W ||| BPF_ABS ∧ insn.k = skfAdCpuK then
      runCbpf cpu cpu rest
    else if insn.code = BPF_RET ||| BPF_A then
      some a
    else
      none

/-! ## UDP binary worker layout (`aquatic/src/main.rs`)

`main` creates one socket and one `State`, then spawns four worker
threads, giving each a `try_clone` of the socket and a `clone` of the
state handle; the main thread keeps its own handles for the periodic
cleaning calls.  Handles are modelled by the identity of the underlying
resource they refer to: `UdpSocket::try_clone` (std) returns a new handle
to the same underlying socket.
-/

/-- A handle to an OS-level UDP socket, identified by the underlying
socket it refers to. -/
structure UdpSocketHandle where
  underlying : Nat
  deriving DecidableEq, Repr

/-- `UdpSocket::try_clone`: a new handle referring to the same underlying
socket (std-documented semantics of file-descriptor duplication). -/
def UdpSocketHandle.try_clone (s : UdpSocketHandle) : UdpSocketHandle :=
  { underlying := s.underlying }

/-- The single socket `main` creates with
`network::create_socket(addr, 4096 * 8)`. -/
def mainSocket : UdpSocketHandle :=
  { underlying := 0 }

/-- What each spawned worker thread receives in `main`'s `for i in 0..4`
loop. -/
structure WorkerSpawn where
  worker_index : Nat
  socket : UdpSocketHandle
  deriving DecidableEq, Repr

/-- The four worker spawns of `main`: worker `i` gets
`socket.try_clone().unwrap()` of the one socket (and a `clone` of the one
`State`). -/
def mainWorkerSpawns : List WorkerSpawn :=
  (List.range 4).map (fun i => { worker_index := i, socket := mainSocket.try_clone })

/-! ## The spec's description of the core-index computation (§4.7)

These definitions transcribe the specification's formula (for the
refinement claim about `get_core_index`); they are to be compared with
the embedding above. -/

/-- The spec's `worker_index_within_role`: workers are ordered socket
workers first, then swarm workers, then the single utility worker. -/
def specWorkerPosition (w : WorkerIndex) (socket_workers swarm_workers : Nat) : Nat :=
  match w with
  | .socketWorker i => i
  | .swarmWorker i => socket_workers + i
  | .util => socket_workers + swarm_workers

/-- The spec's formula: `ascending_index = core_offset +
worker_index_within_role`, clamped to `[0, num_cores - 1]`; for the
descending direction the result is `max_core - ascending_index`. -/
def specCoreIndex (direction : CpuPinningDirection)
    (core_offset position num_cores : Nat) : Nat :=
  let ascending := min (core_offset + position) (num_cores - 1)
  match direction with
  | .ascending => ascending
  | .descending => (num_cores - 1) - ascending

end Aquatic

namespace Aquatic

/-! ## Helper lemmas about the 20-byte codec -/

theorem visitStrLoop_ok_of_valid :
    ∀ (n : Nat) (s : List Nat), n ≤ s.length → (∀ c ∈ s.take n, c ≤ 255) →
      visitStrLoop n s = .ok (s.take n)
  | 0, s, _, _ => by simp [visitStrLoop]
  | n + 1, [], hlen, _ => by simp at hlen
  | n + 1, c :: rest, hlen, hval => by
    have hc : c ≤ 255 := hval c (by simp)
    have hrest : visitStrLoop n rest = .ok (rest.take n) :=
      visitStrLoop_ok_of_valid n rest (by simpa using hlen)
        (fun d hd => hval d (by simp [hd]))
    simp [visitStrLoop, Nat.not_lt.mpr hc, hrest, Except.map]

theorem visitStrLoop_ok_inv :
    ∀ (n : Nat) (s l : List Nat), visitStrLoop n s = .ok l →
      n ≤ s.length ∧ (∀ c ∈ s.take n, c ≤ 255) ∧ l = s.take n
  | 0, s, l, h => by
    have hl : l = [] := by simpa [visitStrLoop] using h.symm
    subst hl
    simp
  | n + 1, [], l, h => by
    simp [visitStrLoop] at h
  | n + 1, c :: rest, l, h => by
    by_cases hc : 255 < c
    · simp [visitStrLoop, hc] at h
    · simp only [visitStrLoop, if_neg hc] at h
      match hrest : visitStrLoop n rest with
      | .error e => rw [hrest] at h; simp [Except.map] at h
      | .ok tail =>
        rw [hrest] at h
        simp [Except.map] at h
        obtain ⟨hlen, hval, htail⟩ := visitStrLoop_ok_inv n rest tail hrest
        refine ⟨by simpa using hlen, ?_, ?_⟩
        · intro d hd
          rcases (by simpa using hd : d = c ∨ d ∈ rest.take n) with rfl | hd'
          · exact Nat.not_lt.mp hc
          · exact hval d hd'
        · simp [h.symm, htail]

theorem infoHashVecVisitSeq_ok_of_valid :
    ∀ (ss : List (List Nat)),
      (∀ s ∈ ss, 20 ≤ s.length ∧ ∀ c ∈ s.take 20, c ≤ 255) →
      infoHashVecVisitSeq (ss.map JsonVal.str) =
        .ok (ss.map (fun s => InfoHash.mk (s.take 20)))
  | [], _ => rfl
  | s :: rest, h => by
    obtain ⟨hs, hrest⟩ := List.forall_mem_cons.mp h
    have hvisit : twentyByteVisitStr s = .ok (s.take 20) :=
      visitStrLoop_ok_of_valid 20 s hs.1 hs.2
    simp [infoHashVecVisitSeq, hvisit,
      infoHashVecVisitSeq_ok_of_valid rest hrest, Except.map]

/-! ## C10 — acceptance condition of `TwentyByteVisitor::visit_str` -/

/-- C10: `visit_str` accepts exactly the strings of length at least 20
whose first 20 characters are in the single-byte range `0..=255`,
returning those first 20 characters as bytes and ignoring any trailing
characters; every other string (shorter than 20, or with an out-of-range
character among the first 20) is rejected. -/
theorem c10_visit_str_accepts_first_twenty (s : List Nat) :
    (twentyByteVisitStr s = .ok (s.take 20) ↔
      20 ≤ s.length ∧ ∀ c ∈ s.take 20, c ≤ 255) ∧
    ∀ l, twentyByteVisitStr s = .ok l → l = s.take 20 := by
  constructor
  · constructor
    · intro h
      have := visitStrLoop_ok_inv 20 s _ h
      exact ⟨this.1, this.2.1⟩
    · intro h
      exact visitStrLoop_ok_of_valid 20 s h.1 h.2
  · intro l h
    exact (visitStrLoop_ok_inv 20 s l h).2.2

/-- Witness for C10 at a concrete input: a 25-character in-range string
is accepted and truncated to its first 20 characters. -/
theorem c10_visit_str_accepts_first_twenty_witness :
    twentyByteVisitStr (List.replicate 25 66) = .ok ((List.replicate 25 66).take 20) :=
  (c10_visit_str_accepts_first_twenty (List.replicate 25 66)).1.mpr (by decide)

/-! ## C5 — round-trip of the 20-byte codec -/

/-- C5: the codec round-trips — for every 20-character string whose
characters are all in the single-byte range, parsing succeeds and
serializing the result reproduces the string; and for every well-formed
20-byte array, parsing the serialization returns the array. -/
theorem c5_codec_roundtrip (x a : List Nat) :
    (x.length = 20 → (∀ c ∈ x, c ≤ 255) →
      ∃ arr, twentyByteVisitStr x = .ok arr ∧ serialize_20_bytes arr = x) ∧
    (a.length = 20 → (∀ b ∈ a, b ≤ 255) →
      twentyByteVisitStr (serialize_20_bytes a) = .ok a) := by
  constructor
  · intro hlen hval
    refine ⟨x.take 20, ?_, ?_⟩
    · exact visitStrLoop_ok_of_valid 20 x (by omega)
        (fun c hc => hval c (List.mem_of_mem_take hc))
    · simp [serialize_20_bytes, List.take_of_length_le (by omega : x.length ≤ 20)]
  · intro hlen hval
    have : serialize_20_bytes a = a := by simp [serialize_20_bytes]
    rw [this]
    have := visitStrLoop_ok_of_valid 20 a (by omega)
      (fun c hc => hval c (List.mem_of_mem_take hc))
    simpa [List.take_of_length_le (by omega : a.length ≤ 20)] using this

/-! ## C4 — number of info-hashes accepted by the scrape deserializer -/

/-- C4 counterexample: deserializing the info-hash list does not fail on
an empty list, nor on one longer than 74 — an empty JSON array yields a
scrape request with zero info-hashes, and an array of 75 valid 20-byte
strings yields 75 info-hashes. -/
theorem c4_counterexample_no_count_bound :
    deserialize_info_hashes (.arr []) = [] ∧
    (deserialize_info_hashes
        (.arr (List.replicate 75 (.str (List.replicate 20 97))))).length = 75 := by
  constructor
  · rfl
  · rfl

/-- C4 amended: `deserialize_info_hashes` never fails and imposes no
bound on the number of info-hashes — a JSON array of `n` valid 20-byte
strings yields exactly those `n` info-hashes for every `n` (including 0
and values above 74), and a null value yields the empty list. -/
theorem c4_amended_any_count_accepted (ss : List (List Nat))
    (h : ∀ s ∈ ss, 20 ≤ s.length ∧ ∀ c ∈ s.take 20, c ≤ 255) :
    deserialize_info_hashes (.arr (ss.map JsonVal.str)) =
      ss.map (fun s => InfoHash.mk (s.take 20)) ∧
    deserialize_info_hashes .null = [] := by
  constructor
  · simp [deserialize_info_hashes, infoHashVecVisit,
      infoHashVecVisitSeq_ok_of_valid ss h]
  · rfl

/-- Witness for the amended C4 at a concrete input: an array of two valid
strings deserializes to its two hashes. -/
theorem c4_amended_any_count_accepted_witness :
    deserialize_info_hashes
        (.arr ([List.replicate 20 97, List.replicate 20 98].map JsonVal.str)) =
      [List.replicate 20 97, List.replicate 20 98].map
        (fun s => InfoHash.mk (s.take 20)) ∧
    deserialize_info_hashes .null = [] :=
  c4_amended_any_count_accepted [List.replicate 20 97, List.replicate 20 98]
    (by decide)

/-- Witness for C5 at concrete inputs: round-trip through a concrete
20-character string and a concrete 20-byte array. -/
theorem c5_codec_roundtrip_witness :
    (∃ arr, twentyByteVisitStr (List.replicate 20 97) = .ok arr ∧
      serialize_20_bytes arr = List.replicate 20 97) ∧
    twentyByteVisitStr (serialize_20_bytes (List.replicate 20 5)) =
      .ok (List.replicate 20 5) :=
  ⟨(c5_codec_roundtrip (List.replicate 20 97) (List.replicate 20 5)).1
      (by decide) (by decide),
   (c5_codec_roundtrip (List.replicate 20 97) (List.replicate 20 5)).2
      (by decide) (by decide)⟩

/-- Shared helper: `get_core_index` coincides with the spec-side formula
(no constraint on `num_cores` is even needed, since both sides clamp with
the same truncated subtraction). -/
theorem get_core_index_eq_spec (w : WorkerIndex) (config : CpuPinningConfig)
    (socket_workers swarm_workers num_cores : Nat) :
    w.get_core_index config socket_workers swarm_workers num_cores =
      specCoreIndex config.direction config.core_offset
        (specWorkerPosition w socket_workers swarm_workers) num_cores := by
  cases w <;> cases hdir : config.direction <;>
    simp [WorkerIndex.get_core_index, specCoreIndex, specWorkerPosition, hdir,
      Nat.add_assoc]

/-! ## C2 — `get_core_index` refines the spec's formula -/

/-- C2: for every worker index, role, core offset and `num_cores ≥ 1`,
`get_core_index` computes `core_offset + worker_index_within_role` (with
roles ordered socket workers, swarm workers, utility), clamps it to
`[0, num_cores - 1]`, and for the descending direction returns
`(num_cores - 1) - ascending_index` — i.e. it equals the spec-side
formula `specCoreIndex`. -/
theorem c2_get_core_index_refines_spec (w : WorkerIndex) (config : CpuPinningConfig)
    (socket_workers swarm_workers num_cores : Nat) (_h : 1 ≤ num_cores) :
    w.get_core_index config socket_workers swarm_workers num_cores =
      specCoreIndex config.direction config.core_offset
        (specWorkerPosition w socket_workers swarm_workers) num_cores :=
  get_core_index_eq_spec w config socket_workers swarm_workers num_cores

/-- Witness for C2 at concrete inputs: a swarm worker with index 1,
offset 2, 3 socket workers, 8 cores, descending direction. -/
theorem c2_get_core_index_refines_spec_witness :
    (WorkerIndex.swarmWorker 1).get_core_index
        ⟨true, .descending, .system, 2⟩ 3 2 8 =
      specCoreIndex .descending 2 (specWorkerPosition (.swarmWorker 1) 3 2) 8 :=
  c2_get_core_index_refines_spec (.swarmWorker 1) ⟨true, .descending, .system, 2⟩
    3 2 8 (by decide)

/-! ## C9 — `get_core_index` stays in range; the subtraction cannot underflow -/

/-- C9: under `num_cores ≥ 1`, `get_core_index` returns a value in
`[0, num_cores - 1]` for both directions, and the descending
subtraction `max_core_index - ascending_index` cannot underflow: the
clamped ascending index is at most `num_cores - 1`, so the `Nat`
(machine) subtraction agrees with the integer subtraction. -/
theorem c9_get_core_index_in_range (w : WorkerIndex) (config : CpuPinningConfig)
    (socket_workers swarm_workers num_cores : Nat) (h : 1 ≤ num_cores) :
    w.get_core_index config socket_workers swarm_workers num_cores < num_cores ∧
    min (config.core_offset + specWorkerPosition w socket_workers swarm_workers)
        (num_cores - 1) ≤ num_cores - 1 ∧
    ((num_cores - 1 -
        min (config.core_offset + specWorkerPosition w socket_workers swarm_workers)
          (num_cores - 1) : Nat) : Int) =
      ((num_cores : Int) - 1) -
        (min (config.core_offset + specWorkerPosition w socket_workers swarm_workers)
          (num_cores - 1) : Nat) := by
  refine ⟨?_, Nat.min_le_right _ _, ?_⟩
  · rw [get_core_index_eq_spec w config socket_workers swarm_workers num_cores]
    cases config.direction <;> simp [specCoreIndex] <;> omega
  · have hle : min (config.core_offset + specWorkerPosition w socket_workers swarm_workers)
        (num_cores - 1) ≤ num_cores - 1 := Nat.min_le_right _ _
    omega

/-- Witness for C9 at concrete inputs: a socket worker with a large index
on a 4-core machine, descending direction. -/
theorem c9_get_core_index_in_range_witness :
    (WorkerIndex.socketWorker 9).get_core_index
        ⟨true, .descending, .system, 0⟩ 10 0 4 < 4 ∧
    min (0 + specWorkerPosition (.socketWorker 9) 10 0) (4 - 1) ≤ 4 - 1 ∧
    ((4 - 1 - min (0 + specWorkerPosition (.socketWorker 9) 10 0) (4 - 1) : Nat) : Int) =
      ((4 : Int) - 1) - (min (0 + specWorkerPosition (.socketWorker 9) 10 0) (4 - 1) : Nat) :=
  c9_get_core_index_in_range (.socketWorker 9) ⟨true, .descending, .system, 0⟩
    10 0 4 (by decide)

/-! ## C3 — when does `get_worker_cpu_set` fail on over-requested workers? -/

/-- C3 counterexample: under the `System` hyperthread policy the pinning
operation does NOT return an error when more workers are requested than
there are cores — on a 4-core topology with 10 socket workers (plus the
utility worker, i.e. 11 > 4 workers), socket worker 9 is silently
assigned the last core. -/
theorem c3_counterexample_system_clamps :
    get_num_cpu_cores [⟨0, 0⟩, ⟨1, 1⟩, ⟨2, 2⟩, ⟨3, 3⟩] = .ok 4 ∧
    (4 : Nat) < 10 + 0 + 1 ∧
    get_worker_cpu_set [⟨0, 0⟩, ⟨1, 1⟩, ⟨2, 2⟩, ⟨3, 3⟩]
        ⟨true, .ascending, .system, 0⟩ 10 0 (.socketWorker 9) =
      .ok [⟨3, 3⟩] := by
  refine ⟨rfl, by decide, rfl⟩

/-- C3 amended: only under the `Split` and `Subsequent` hyperthread
policies does the pinning operation return an error when the
configuration requests more workers than those policies allow (ascending
direction: the worker's core index reaches `num_cores / 2`; descending:
it falls below `num_cores / 2`); under the `System` policy the core index
is silently clamped and a core is assigned. -/
theorem c3_amended_error_only_split_subsequent (online : List CpuLocation)
    (config : CpuPinningConfig) (socket_workers swarm_workers : Nat)
    (w : WorkerIndex) (n : Nat)
    (hn : get_num_cpu_cores online = .ok n)
    (hht : config.hyperthread = .split ∨ config.hyperthread = .subsequent)
    (hdir : if config.direction = .ascending
        then n / 2 ≤ w.get_core_index config socket_workers swarm_workers n
        else w.get_core_index config socket_workers swarm_workers n < n / 2) :
    get_worker_cpu_set online config socket_workers swarm_workers w =
      .error "CPU pinning: total number of workers (including the single utility worker) can not exceed number of virtual CPUs / 2 - core_offset in this hyperthread mapping mode" := by
  unfold get_worker_cpu_set
  rw [hn]
  rcases hht with hht | hht <;> cases hd : config.direction <;>
    simp [hht, hd] at hdir ⊢ <;> omega

/-- Witness for the amended C3 at a concrete input: `Split`/ascending on
a 4-core topology with 10 socket workers errors out for socket worker 9
(core index 3 ≥ 4 / 2). -/
theorem c3_amended_error_only_split_subsequent_witness :
    get_worker_cpu_set [⟨0, 0⟩, ⟨1, 1⟩, ⟨2, 2⟩, ⟨3, 3⟩]
        ⟨true, .ascending, .split, 0⟩ 10 0 (.socketWorker 9) =
      .error "CPU pinning: total number of workers (including the single utility worker) can not exceed number of virtual CPUs / 2 - core_offset in this hyperthread mapping mode" :=
  c3_amended_error_only_split_subsequent _ _ _ _ _ 4 (by decide) (Or.inl rfl)
    (by decide)

/-! ## C6 — the socket-worker startup barrier in `run` -/

theorem barrier_findSome?_isSome_of_err
    {statuses : List (Option (Except String Unit))} {err : String}
    (hmem : some (Except.error err) ∈ statuses) :
    ∃ e, (statuses.findSome? (fun s =>
        match s with
        | some (.error e) => some e
        | _ => none)) = some e := by
  induction statuses with
  | nil => simp at hmem
  | cons hd tl ih =>
    rcases List.mem_cons.mp hmem with rfl | hmem'
    · exact ⟨err, by simp [List.findSome?]⟩
    · match hd with
      | none => simpa [List.findSome?] using ih hmem'
      | some (.ok _) => simpa [List.findSome?] using ih hmem'
      | some (.error e) => exact ⟨e, by simp [List.findSome?]⟩

theorem barrier_findSome?_eq_none_iff
    (statuses : List (Option (Except String Unit))) :
    (statuses.findSome? (fun s =>
        match s with
        | some (.error e) => some e
        | _ => none)) = none ↔
      ∀ err, some (Except.error err) ∉ statuses := by
  induction statuses with
  | nil => simp
  | cons hd tl ih =>
    match hd with
    | none =>
      simp only [List.findSome?]
      simpa using ih
    | some (.ok u) =>
      simp only [List.findSome?]
      cases u
      constructor
      · intro h err hmem
        rcases List.mem_cons.mp hmem with heq | hmem'
        · exact Except.noConfusion (Option.some.inj heq)
        · exact (ih.mp h) err hmem'
      · intro h
        exact ih.mpr (fun err hmem => h err (List.mem_cons_of_mem _ hmem))
    | some (.error e) =>
      simp only [List.findSome?]
      constructor
      · intro h
        exact Option.noConfusion h
      · intro h
        exact absurd (List.mem_cons_self _ _) (fun hmem => h e hmem)

/-- C6: if any socket worker reports an unrecoverable startup error, `run`
returns that error — privileges are not dropped and the request worker is
not started; and `run` proceeds past the startup barrier exactly when
every socket worker slot holds a success report. -/
theorem c6_startup_barrier (drop_privileges : Bool)
    (statuses : List (Option (Except String Unit))) :
    ((∃ err, some (Except.error err) ∈ statuses) →
      (∃ err, runAfterBarrier drop_privileges statuses = [.returnError err]) ∧
      RunAction.dropPrivileges ∉ runAfterBarrier drop_privileges statuses ∧
      RunAction.spawnRequestWorker ∉ runAfterBarrier drop_privileges statuses) ∧
    (barrierCheck statuses = .proceed ↔
      ∀ s ∈ statuses, s = some (Except.ok ())) := by
  constructor
  · rintro ⟨err, hmem⟩
    obtain ⟨e, he⟩ := barrier_findSome?_isSome_of_err hmem
    have hrun : runAfterBarrier drop_privileges statuses = [.returnError e] := by
      simp [runAfterBarrier, barrierCheck, he]
    refine ⟨⟨e, hrun⟩, ?_, ?_⟩ <;> simp [hrun]
  · constructor
    · intro h s hmem
      cases hfind : statuses.findSome? (fun s =>
          match s with
          | some (.error e) => some e
          | _ => none) with
      | some e => simp [barrierCheck, hfind] at h
      | none =>
        have hno := (barrier_findSome?_eq_none_iff statuses).mp hfind
        cases hall : statuses.all Option.isSome with
        | false => simp [barrierCheck, hfind, hall] at h
        | true =>
          have hs : s.isSome := by
            simpa using List.all_eq_true.mp hall s hmem
          match s, hs with
          | some (.ok u), _ => cases u; rfl
          | some (.error e), _ => exact absurd hmem (hno e)
    · intro h
      have hfind : (statuses.findSome? (fun s =>
          match s with
          | some (.error e) => some e
          | _ => none)) = none := by
        apply (barrier_findSome?_eq_none_iff statuses).mpr
        intro err hmem
        have := h _ hmem
        simp at this
      have hall : statuses.all Option.isSome :=
        List.all_eq_true.mpr (fun s hmem => by simp [h s hmem])
      simp [barrierCheck, hfind, hall]

/-- Witness for C6 at concrete inputs: a snapshot with one failed worker
makes `run` return the error (no privilege drop, no request worker), and
an all-success snapshot passes the barrier. -/
theorem c6_startup_barrier_witness :
    (∃ err, runAfterBarrier true [some (Except.ok ()), some (Except.error "bind failed")] =
      [.returnError err]) ∧
    barrierCheck [some (Except.ok ()), some (Except.ok ())] = .proceed :=
  ⟨((c6_startup_barrier true [some (Except.ok ()), some (Except.error "bind failed")]).1
      ⟨"bind failed", by decide⟩).1,
   (c6_startup_barrier true [some (Except.ok ()), some (Except.ok ())]).2.mpr
      (by decide)⟩

/-! ## C7 — the installed CBPF classifier -/

/-- C7: the classifier installed via `SO_ATTACH_REUSEPORT_CBPF` is
exactly the two instructions [load `SKF_AD_CPU` into A; return A] (with
`k = u32-reinterpretation of SKF_AD_OFF + SKF_AD_CPU` on the load and no
modulo by the number of sockets), and under the classic-BPF semantics it
denotes, for every incoming datagram, the constant function returning the
index of the CPU handling the interrupt. -/
theorem c7_cbpf_returns_cpu_index :
    cbpfFilter =
      [ { code := 0x20, jt := 0, jf := 0, k := 4294963236 },
        { code := 0x16, jt := 0, jf := 0, k := 0 } ] ∧
    ∀ cpu a, runCbpf cpu a cbpfFilter = some cpu := by
  constructor
  · rfl
  · intro cpu a
    rfl

/-! ## C1 — the freshness stamp given to `handle_announce_request` -/

/-- C1 counterexample: the stamp passed to `handle_announce_request` is
not computed from the request time — with `max_peer_age = 120`, a worker
started at instant 0 whose refresh timer last fired at instant 10 passes
stamp `130` to an announce handled at instant 11, while the claim
requires `11 + 120 = 131`. -/
theorem c1_counterexample_stale_stamp :
    ¬ ∀ p ∈ swarmWorkerStamps 120 0 [.timerTick 10, .announce 11],
        p.2 = p.1 + 120 := by
  intro h
  have := h (11, 130) (by decide)
  simp at this

theorem swarmWorkerStampsFrom_eq_lastRefresh (max_peer_age : Nat) :
    ∀ (events : List SwarmWorkerEvent) (refresh_time : Nat),
      swarmWorkerStampsFrom max_peer_age (ValidUntil.new refresh_time max_peer_age)
          events =
        lastRefreshStampsFrom max_peer_age refresh_time events
  | [], _ => rfl
  | .timerTick now :: rest, _ => by
    simpa [swarmWorkerStampsFrom, lastRefreshStampsFrom] using
      swarmWorkerStampsFrom_eq_lastRefresh max_peer_age rest now
  | .announce now :: rest, refresh_time => by
    simpa [swarmWorkerStampsFrom, lastRefreshStampsFrom, ValidUntil.new] using
      swarmWorkerStampsFrom_eq_lastRefresh max_peer_age rest refresh_time

/-- C1 amended: the stamp passed to `handle_announce_request` for an
announce equals the instant of the most recent `peer_valid_until` refresh
— the worker start or the latest preceding one-second timer tick — plus
`max_peer_age`, rather than the instant the request itself is handled
plus `max_peer_age`. -/
theorem c1_amended_stamp_from_last_refresh (max_peer_age start_time : Nat)
    (events : List SwarmWorkerEvent) :
    swarmWorkerStamps max_peer_age start_time events =
      lastRefreshStampsFrom max_peer_age start_time events :=
  swarmWorkerStampsFrom_eq_lastRefresh max_peer_age events start_time

/-! ## C8 — socket/state layout of the UDP binary -/

/-- C8 counterexample: the workers of `aquatic/src/main.rs` do not each
own their own socket — two distinct workers hold `try_clone` handles of
the same underlying socket. -/
theorem c8_counterexample_shared_socket :
    ∃ w0 ∈ mainWorkerSpawns, ∃ w1 ∈ mainWorkerSpawns,
      w0.worker_index ≠ w1.worker_index ∧ w0.socket = w1.socket := by
  refine ⟨⟨0, mainSocket.try_clone⟩, by decide, ⟨1, mainSocket.try_clone⟩, by decide,
    by decide, rfl⟩

/-- C8 amended: in this binary all four UDP workers share a single
socket — each receives a `try_clone` handle of the one socket created in
`main` (the handles all refer to the same underlying socket), and the one
`State` is cloned into every worker — so datagrams are picked up by
whichever worker receives from the shared socket rather than being
sharded per worker. -/
theorem c8_amended_workers_share_one_socket :
    mainWorkerSpawns.length = 4 ∧
    ∀ w ∈ mainWorkerSpawns, w.socket.underlying = mainSocket.underlying := by
  constructor
  · rfl
  · decide

end Aquatic
